import Mathlib

/-!
Verification model of the resampling engine of the miniaudio Rust bindings
(src/miniaudio/src/resampling.rs).  The Rust layer under src/ is translated
directly.  The C backend reached through miniaudio_sys is not part of src/,
so each of its entry points is modelled from the specification; every such
definition carries a doc comment starting with the words
Modelled from the spec.
-/

namespace Miniaudio

/-- One PCM sample.  The source fixes a numeric PCM encoding per stream
(signed 16-bit, 32-bit float, ...); the numeric value is modelled as a
rational so that linear interpolation is exact. -/
abbrev Sample := ℚ

/-- One frame: the channel-count many interleaved samples of one time
instant. -/
abbrev Frame := List Sample

/-- Modelled from the spec: the sample format enumeration of the frame
model (base.rs and frames.rs of this repository are not under src/).  The
spec names signed 16-bit and 32-bit float encodings as examples. -/
inductive Format where
  | u8
  | s16
  | s24
  | s32
  | f32
deriving DecidableEq

/-- Modelled from the spec: the error type of the bindings (base.rs of this
repository is not under src/).  The value invalidArgs covers the
configuration errors the spec describes, such as a zero sample rate. -/
inductive Error where
  | invalidArgs
deriving DecidableEq

/-- The resampling algorithm selector, from the source enum
ResampleAlgorithm with variants Linear and Speex. -/
inductive ResampleAlgorithm where
  | linear
  | speex
deriving DecidableEq

/-- The linear resampler configuration, mirroring the fields of
sys::ma_linear_resampler_config that the source wrapper exposes.  The
low-pass Nyquist factor is a 64-bit float in the source; it is modelled as
a rational. -/
structure LinearResamplerConfig where
  format : Format
  channels : Nat
  sampleRateIn : Nat
  sampleRateOut : Nat
  lpfOrder : Nat
  lpfNyquistFactor : ℚ
deriving DecidableEq

namespace LinearResamplerConfig

/-- From the source: LinearResamplerConfig::new.  The format and channel
count arguments stand for the values S::format() and S::channels::<F>()
computed from the type parameters; the C initializer fills in the defaults
for the remaining fields (low-pass order 4, Nyquist factor 1). -/
def new (format : Format) (channels : Nat) (sampleRateIn sampleRateOut : Nat) :
    LinearResamplerConfig :=
  { format := format
    channels := channels
    sampleRateIn := sampleRateIn
    sampleRateOut := sampleRateOut
    lpfOrder := 4
    lpfNyquistFactor := 1 }

/-- From the source: LinearResamplerConfig::set_sample_rate_in. -/
def set_sample_rate_in (c : LinearResamplerConfig) (sampleRate : Nat) :
    LinearResamplerConfig :=
  { c with sampleRateIn := sampleRate }

/-- From the source: LinearResamplerConfig::set_sample_rate_out. -/
def set_sample_rate_out (c : LinearResamplerConfig) (sampleRate : Nat) :
    LinearResamplerConfig :=
  { c with sampleRateOut := sampleRate }

/-- From the source: LinearResamplerConfig::set_lpf_order.  Order 0
disables low-pass filtering. -/
def set_lpf_order (c : LinearResamplerConfig) (order : Nat) :
    LinearResamplerConfig :=
  { c with lpfOrder := order }

/-- From the source: LinearResamplerConfig::set_lpf_nyquist_factor. -/
def set_lpf_nyquist_factor (c : LinearResamplerConfig) (factor : ℚ) :
    LinearResamplerConfig :=
  { c with lpfNyquistFactor := factor }

end LinearResamplerConfig

/-- The engine-level configuration, mirroring sys::ma_resampler_config as
exposed by the source wrapper: the shared fields, the algorithm selector,
the linear parameters and the band-limited (Speex) quality. -/
structure ResamplerConfig where
  format : Format
  channels : Nat
  sampleRateIn : Nat
  sampleRateOut : Nat
  algorithm : ResampleAlgorithm
  linearLpfOrder : Nat
  linearLpfNyquistFactor : ℚ
  speexQuality : Nat
deriving DecidableEq

namespace ResamplerConfig

/-- From the source: ResamplerConfig::new.  The format and channel count
arguments stand for S::format() and S::channels::<F>() computed from the
type parameters; the C initializer fills in the defaults for the algorithm
parameters (linear low-pass order 4, Nyquist factor 1, Speex quality 3). -/
def new (format : Format) (channels : Nat) (sampleRateIn sampleRateOut : Nat)
    (algorithm : ResampleAlgorithm) : ResamplerConfig :=
  { format := format
    channels := channels
    sampleRateIn := sampleRateIn
    sampleRateOut := sampleRateOut
    algorithm := algorithm
    linearLpfOrder := 4
    linearLpfNyquistFactor := 1
    speexQuality := 3 }

/-- From the source: ResamplerConfig::set_sample_rate_in. -/
def set_sample_rate_in (c : ResamplerConfig) (sampleRate : Nat) : ResamplerConfig :=
  { c with sampleRateIn := sampleRate }

/-- From the source: ResamplerConfig::set_sample_rate_out. -/
def set_sample_rate_out (c : ResamplerConfig) (sampleRate : Nat) : ResamplerConfig :=
  { c with sampleRateOut := sampleRate }

/-- From the source: ResamplerConfig::set_algorithm. -/
def set_algorithm (c : ResamplerConfig) (algorithm : ResampleAlgorithm) :
    ResamplerConfig :=
  { c with algorithm := algorithm }

/-- From the source: ResamplerConfig::set_linear_lpf_order. -/
def set_linear_lpf_order (c : ResamplerConfig) (order : Nat) : ResamplerConfig :=
  { c with linearLpfOrder := order }

/-- From the source: ResamplerConfig::set_linear_lpf_nyquist_factor. -/
def set_linear_lpf_nyquist_factor (c : ResamplerConfig) (factor : ℚ) :
    ResamplerConfig :=
  { c with linearLpfNyquistFactor := factor }

/-- From the source: ResamplerConfig::speex_quality, which reads the stored
quality back as an unsigned integer. -/
def speex_quality (c : ResamplerConfig) : Nat :=
  c.speexQuality

/-- From the source: ResamplerConfig::set_speex_quality stores
std::cmp::min(quality, 10); the stored value fits losslessly in the i32
field of the C struct. -/
def set_speex_quality (c : ResamplerConfig) (quality : Nat) : ResamplerConfig :=
  { c with speexQuality := min quality 10 }

end ResamplerConfig

/-- The linear resampler state, mirroring the fields of
sys::ma_linear_resampler that the source accessors expose: the
configuration, the fixed-point advance (integer part and fractional part
over the denominator sampleRateOut), the fixed-point read position, the
window of the two most recently read input frames, and the low-pass delay
history. -/
structure MaLinearResampler where
  config : LinearResamplerConfig
  inAdvanceInt : Nat
  inAdvanceFrac : Nat
  inTimeInt : Nat
  inTimeFrac : Nat
  x0 : Frame
  x1 : Frame
  lpfDelay : List Frame
deriving DecidableEq

/-- Modelled from the spec: ma_linear_resampler_init validates the
configuration (both sample rates strictly positive) before building any
state; on success the advance is the exact fixed-point quotient of the two
rates and the read position is freshly initialized.  The initial pending
load count 2 makes the first produced frame read input position zero, as
the identity and downsampling scenarios of the spec require. -/
def ma_linear_resampler_init (config : LinearResamplerConfig) :
    Except Error MaLinearResampler :=
  if config.sampleRateIn = 0 ∨ config.sampleRateOut = 0 then
    .error .invalidArgs
  else
    .ok
      { config := config
        inAdvanceInt := config.sampleRateIn / config.sampleRateOut
        inAdvanceFrac := config.sampleRateIn % config.sampleRateOut
        inTimeInt := 2
        inTimeFrac := 0
        x0 := List.replicate config.channels 0
        x1 := List.replicate config.channels 0
        lpfDelay := [] }

/-- Modelled from the spec: per-channel linear interpolation between the
two surrounding input frames at the current fractional position. -/
def lerpFrame (x0 x1 : Frame) (tFrac den : Nat) : Frame :=
  List.zipWith (fun a b => a + (b - a) * ((tFrac : ℚ) / (den : ℚ))) x0 x1

/-- Modelled from the spec: shift count input frames through the two-frame
window that the linear algorithm keeps across calls.  The spec requires
call boundaries to be lossless, so the samples surrounding the current
read position are retained in the resampler state rather than re-read. -/
def shiftIn (x0 x1 : Frame) (input : List Frame) : Nat → Frame × Frame × List Frame
  | 0 => (x0, x1, input)
  | count + 1 =>
    match input with
    | [] => (x0, x1, [])
    | fr :: rest => shiftIn x1 fr rest count

/-- The intermediate result of the per-output-frame loop of the linear
algorithm: the produced frames, the final fixed-point position, the final
two-frame window, and the input frames not yet read. -/
structure LoopResult where
  outs : List Frame
  tInt : Nat
  tFrac : Nat
  x0 : Frame
  x1 : Frame
  rem : List Frame
deriving DecidableEq

/-- The number of input frames that must still be shifted into the window
before the next output frame can be interpolated: when the fractional part
of the read position is zero the output frame is exactly the input frame
at the integer position, so one load fewer is needed. -/
def loadCount (tInt tFrac : Nat) : Nat :=
  if tFrac = 0 then tInt - 1 else tInt

/-- The carry of one fixed-point advance of the fractional position. -/
def stepCarry (den tFrac advFrac : Nat) : Nat :=
  if den ≤ tFrac + advFrac then 1 else 0

/-- The output frame interpolated from the freshly loaded window.  With a
zero fractional part the window holds the input frame at the read position
in its newer slot; otherwise the position falls strictly between the two
window frames and is linearly interpolated. -/
def outOf (tInt tFrac den : Nat) (y0 y1 : Frame) : Frame :=
  if tFrac = 0 ∧ 1 ≤ tInt then y1 else lerpFrame y0 y1 tFrac den

/-- Modelled from the spec: the per-output-frame loop of the linear
algorithm.  tInt counts the input frames that must still be shifted into
the window before the window surrounds the read position of the next
output frame; tFrac is the fractional part of that position over the
denominator den.  Each iteration loads the required frames, interpolates
one output frame, and advances the position by the fixed-point advance
with carry.  When the input cannot supply the required frames the loop
drains the remaining input into the window (those frames stay available
across the call boundary) and stops. -/
def processGo (advInt advFrac den : Nat) :
    Nat → Nat → Nat → Frame → Frame → List Frame → LoopResult
  | 0, tInt, tFrac, x0, x1, input => ⟨[], tInt, tFrac, x0, x1, input⟩
  | fuel + 1, tInt, tFrac, x0, x1, input =>
    if loadCount tInt tFrac ≤ input.length then
      let w := shiftIn x0 x1 input (loadCount tInt tFrac)
      let r := processGo advInt advFrac den fuel
        (tInt - loadCount tInt tFrac + advInt + stepCarry den tFrac advFrac)
        (tFrac + advFrac - stepCarry den tFrac advFrac * den) w.1 w.2.1 w.2.2
      { r with outs := outOf tInt tFrac den w.1 w.2.1 :: r.outs }
    else
      ⟨[], tInt - input.length, tFrac,
        (shiftIn x0 x1 input input.length).1,
        (shiftIn x0 x1 input input.length).2.1, []⟩

/-- The outcome of one processing call: the updated resampler, the count of
input frames consumed, the count of output frames produced, and the frames
written to the output buffer. -/
structure PcmResult (σ : Type) where
  state : σ
  consumed : Nat
  produced : Nat
  outFrames : List Frame
deriving DecidableEq

/-- Modelled from the spec: ma_linear_resampler_process_pcm_frames.  The
loop produces up to outCap output frames from the supplied input.  The
consumed count reports every input frame the position has moved past,
whether it was shifted into the window or skipped while downsampling, and
never an input frame that is still needed; the fractional excess of the
position is kept in the state so the next call resumes at the correct
sub-frame position. -/
def maLinearProcessFrames (lr : MaLinearResampler) (outCap : Nat)
    (input : List Frame) : PcmResult MaLinearResampler :=
  let r := processGo lr.inAdvanceInt lr.inAdvanceFrac lr.config.sampleRateOut outCap
    lr.inTimeInt lr.inTimeFrac lr.x0 lr.x1 input
  let readCount := input.length - r.rem.length
  let posPlus := r.tInt + readCount
  let consumed := max readCount (min posPlus (input.length + 2) - 2)
  { state :=
      { lr with
        inTimeInt := posPlus - consumed
        inTimeFrac := r.tFrac
        x0 := r.x0
        x1 := r.x1 }
    consumed := consumed
    produced := r.outs.length
    outFrames := r.outs }

/-- Modelled from the spec: ma_linear_resampler_set_rate validates the new
rates, updates the stored configuration and the fixed-point advance, and
rescales the fractional position to the new denominator without resetting
it, so a rate change keeps the streaming position. -/
def ma_linear_resampler_set_rate (lr : MaLinearResampler)
    (sampleRateIn sampleRateOut : Nat) : Except Error MaLinearResampler :=
  if sampleRateIn = 0 ∨ sampleRateOut = 0 then
    .error .invalidArgs
  else
    .ok
      { lr with
        config := { lr.config with
          sampleRateIn := sampleRateIn, sampleRateOut := sampleRateOut }
        inAdvanceInt := sampleRateIn / sampleRateOut
        inAdvanceFrac := sampleRateIn % sampleRateOut
        inTimeFrac := lr.inTimeFrac * sampleRateOut / lr.config.sampleRateOut }

/-- Modelled from the spec: the number of additional whole input frames,
beyond the frames already held in the window, needed to produce the given
number of output frames.  The k-th next output frame reads fixed-point
position inTimeFrac + k times the advance beyond the current integer
position; the last of the first n output frames therefore needs the input
read to reach that position, rounded up to a whole frame, and inTimeInt
pending loads are still outstanding for the first of them. -/
def ma_linear_resampler_get_required_input_frame_count
    (lr : MaLinearResampler) (outputFrameCount : Nat) : Nat :=
  if outputFrameCount = 0 then 0
  else
    let den := lr.config.sampleRateOut
    let stepUnits := lr.inAdvanceInt * den + lr.inAdvanceFrac
    let units := lr.inTimeFrac + (outputFrameCount - 1) * stepUnits
    lr.inTimeInt + (units + den - 1) / den - 1

/-- Modelled from the spec: the number of whole output frames produced
once the given number of additional input frames has been fully read and
consumed.  Output frame k is produced as soon as the input read reaches
its fixed-point position; counting the positions reachable with the given
frames yields the closed form below. -/
def ma_linear_resampler_get_expected_output_frame_count
    (lr : MaLinearResampler) (inputFrameCount : Nat) : Nat :=
  let den := lr.config.sampleRateOut
  let stepUnits := lr.inAdvanceInt * den + lr.inAdvanceFrac
  if lr.inTimeInt ≤ inputFrameCount + 1 ∧
      lr.inTimeFrac ≤ (inputFrameCount + 1 - lr.inTimeInt) * den then
    ((inputFrameCount + 1 - lr.inTimeInt) * den - lr.inTimeFrac) / stepUnits + 1
  else 0

/-- Modelled from the spec: the latency of the linear algorithm in input
frames, attributable to the one-frame window buffering plus the low-pass
filter taps. -/
def ma_linear_resampler_get_input_latency (lr : MaLinearResampler) : Nat :=
  1 + lr.config.lpfOrder

/-- Modelled from the spec: the latency of the linear algorithm expressed
in output-frame units, the input latency scaled by the rate quotient. -/
def ma_linear_resampler_get_output_latency (lr : MaLinearResampler) : Nat :=
  (1 + lr.config.lpfOrder) * lr.config.sampleRateOut / lr.config.sampleRateIn

namespace LinearResampler

/-- From the source: LinearResampler::new forwards the configuration to
ma_linear_resampler_init and propagates its error through
Error::from_c_result, so a failed initialization is returned as Err and no
resampler value is produced. -/
def new (config : LinearResamplerConfig) : Except Error MaLinearResampler :=
  ma_linear_resampler_init config

/-- From the source: LinearResampler::process_pcm_frames passes the input
count and the output capacity to the C routine and returns the consumed
and produced counts it reports. -/
def process_pcm_frames (lr : MaLinearResampler) (outCap : Nat)
    (input : List Frame) : Except Error (PcmResult MaLinearResampler) :=
  .ok (maLinearProcessFrames lr outCap input)

/-- From the source: LinearResampler::set_rate. -/
def set_rate (lr : MaLinearResampler) (sampleRateIn sampleRateOut : Nat) :
    Except Error MaLinearResampler :=
  ma_linear_resampler_set_rate lr sampleRateIn sampleRateOut

/-- From the source: LinearResampler::required_input_frame_count. -/
def required_input_frame_count (lr : MaLinearResampler)
    (outputFrameCount : Nat) : Nat :=
  ma_linear_resampler_get_required_input_frame_count lr outputFrameCount

/-- From the source: LinearResampler::expected_output_frame_count. -/
def expected_output_frame_count (lr : MaLinearResampler)
    (inputFrameCount : Nat) : Nat :=
  ma_linear_resampler_get_expected_output_frame_count lr inputFrameCount

/-- From the source: LinearResampler::input_latency. -/
def input_latency (lr : MaLinearResampler) : Nat :=
  ma_linear_resampler_get_input_latency lr

/-- From the source: LinearResampler::output_latency. -/
def output_latency (lr : MaLinearResampler) : Nat :=
  ma_linear_resampler_get_output_latency lr

/-- From the source: the Clone implementation of LinearResampler builds a
fresh instance from the stored configuration only, via
Self::new(self.config()). -/
def clone (lr : MaLinearResampler) : Except Error MaLinearResampler :=
  new lr.config

end LinearResampler

/-- Modelled from the spec: the state of the band-limited (Speex) backend.
Its filter-bank internals are out of scope; the model keeps the quality
and rates it was built from and the latency values it reports through the
algorithm interface. -/
structure MaSpeexResampler where
  quality : Nat
  sampleRateIn : Nat
  sampleRateOut : Nat
  reportedInputLatency : Nat
  reportedOutputLatency : Nat
deriving DecidableEq

/-- The algorithm-state variant held by the engine, one constructor per
algorithm of the configuration. -/
inductive MaResamplerState where
  | linear (lr : MaLinearResampler)
  | speex (s : MaSpeexResampler)
deriving DecidableEq

/-- The engine struct sys::ma_resampler: the configuration used to build
it plus the state of the selected algorithm. -/
structure MaResampler where
  config : ResamplerConfig
  state : MaResamplerState
deriving DecidableEq

/-- The linear-algorithm configuration derived from an engine
configuration. -/
def ResamplerConfig.toLinear (c : ResamplerConfig) : LinearResamplerConfig :=
  { format := c.format
    channels := c.channels
    sampleRateIn := c.sampleRateIn
    sampleRateOut := c.sampleRateOut
    lpfOrder := c.linearLpfOrder
    lpfNyquistFactor := c.linearLpfNyquistFactor }

/-- Modelled from the spec: ma_resampler_init validates the configuration
(rates strictly positive) and builds the state of the selected algorithm;
a fresh band-limited backend starts with no reported latency debt in this
model, its internals being out of scope. -/
def ma_resampler_init (config : ResamplerConfig) : Except Error MaResampler :=
  if config.sampleRateIn = 0 ∨ config.sampleRateOut = 0 then
    .error .invalidArgs
  else
    match config.algorithm with
    | .linear =>
      match ma_linear_resampler_init config.toLinear with
      | .ok lr => .ok { config := config, state := .linear lr }
      | .error e => .error e
    | .speex =>
      .ok
        { config := config
          state := .speex
            { quality := config.speexQuality
              sampleRateIn := config.sampleRateIn
              sampleRateOut := config.sampleRateOut
              reportedInputLatency := 0
              reportedOutputLatency := 0 } }

/-- Modelled from the spec: the band-limited backend is an external
collaborator that honors the processing contract of the algorithm
interface, in particular that it never reports counts exceeding the
buffer bounds; its internals are out of scope and are modelled minimally. -/
def maSpeexProcessFrames (s : MaSpeexResampler) (outCap : Nat)
    (input : List Frame) : PcmResult MaSpeexResampler :=
  { state := s
    consumed := min input.length outCap
    produced := min input.length outCap
    outFrames := input.take outCap }

/-- Modelled from the spec: ma_resampler_process_pcm_frames dispatches the
processing call to the algorithm selected by the configuration. -/
def ma_resampler_process_pcm_frames (r : MaResampler) (outCap : Nat)
    (input : List Frame) : PcmResult MaResampler :=
  match r.state with
  | .linear lr =>
    let p := maLinearProcessFrames lr outCap input
    { state := { r with state := .linear p.state }
      consumed := p.consumed
      produced := p.produced
      outFrames := p.outFrames }
  | .speex s =>
    let p := maSpeexProcessFrames s outCap input
    { state := { r with state := .speex p.state }
      consumed := p.consumed
      produced := p.produced
      outFrames := p.outFrames }

/-- Modelled from the spec: ma_resampler_set_rate validates the new rates,
updates the stored configuration and forwards the change to the selected
algorithm without resetting its streaming state. -/
def ma_resampler_set_rate (r : MaResampler) (sampleRateIn sampleRateOut : Nat) :
    Except Error MaResampler :=
  if sampleRateIn = 0 ∨ sampleRateOut = 0 then
    .error .invalidArgs
  else
    let config := { r.config with
      sampleRateIn := sampleRateIn, sampleRateOut := sampleRateOut }
    match r.state with
    | .linear lr =>
      match ma_linear_resampler_set_rate lr sampleRateIn sampleRateOut with
      | .ok lr => .ok { config := config, state := .linear lr }
      | .error e => .error e
    | .speex s =>
      .ok
        { config := config
          state := .speex
            { s with sampleRateIn := sampleRateIn, sampleRateOut := sampleRateOut } }

/-- Modelled from the spec: ma_resampler_get_required_input_frame_count
delegates the query to the algorithm selected by the configuration.  The
band-limited backend reports through its own accounting; out of scope, it
is modelled by the exact rate quotient. -/
def ma_resampler_get_required_input_frame_count (r : MaResampler)
    (outputFrameCount : Nat) : Nat :=
  match r.state with
  | .linear lr => ma_linear_resampler_get_required_input_frame_count lr outputFrameCount
  | .speex s => outputFrameCount * s.sampleRateIn / s.sampleRateOut

/-- Modelled from the spec: the engine-level expected-output query as the
spec specifies it, delegating to the algorithm selected by the
configuration. -/
def ma_resampler_get_expected_output_frame_count (r : MaResampler)
    (inputFrameCount : Nat) : Nat :=
  match r.state with
  | .linear lr => ma_linear_resampler_get_expected_output_frame_count lr inputFrameCount
  | .speex s => inputFrameCount * s.sampleRateOut / s.sampleRateIn

/-- Modelled from the spec: the engine-level input-latency query as the
spec specifies it, delegating to the algorithm selected by the
configuration; the band-limited backend reports its own latency. -/
def ma_resampler_get_input_latency (r : MaResampler) : Nat :=
  match r.state with
  | .linear lr => ma_linear_resampler_get_input_latency lr
  | .speex s => s.reportedInputLatency

/-- Modelled from the spec: the engine-level output-latency query as the
spec specifies it, delegating to the algorithm selected by the
configuration. -/
def ma_resampler_get_output_latency (r : MaResampler) : Nat :=
  match r.state with
  | .linear lr => ma_linear_resampler_get_output_latency lr
  | .speex s => s.reportedOutputLatency

/-- The engine value the source observes when ma_resampler_init fails but
the MaybeUninit buffer is assumed initialized anyway: the C initializer
has not filled the struct, so the observable value is unspecified;
modelled as the zero value, whose configuration violates the rate
invariant. -/
def uninitMaResampler : MaResampler :=
  { config :=
      { format := .u8
        channels := 0
        sampleRateIn := 0
        sampleRateOut := 0
        algorithm := .linear
        linearLpfOrder := 0
        linearLpfNyquistFactor := 0
        speexQuality := 0 }
    state := .speex
      { quality := 0
        sampleRateIn := 0
        sampleRateOut := 0
        reportedInputLatency := 0
        reportedOutputLatency := 0 } }

/-- The view the source produces at its engine-level latency and
expected-output queries by casting the ma_resampler pointer to a
ma_linear_resampler pointer.  When the engine holds the linear algorithm
the model reads the linear state (the charitable reading of the cast);
when it holds the band-limited backend the reinterpreted bytes are a
backend handle, not a linear resampler, so the view is garbage, modelled
as the zero linear state. -/
def resamplerAsLinearView (r : MaResampler) : MaLinearResampler :=
  match r.state with
  | .linear lr => lr
  | .speex _ =>
    { config :=
        { format := .u8
          channels := 0
          sampleRateIn := 0
          sampleRateOut := 0
          lpfOrder := 0
          lpfNyquistFactor := 0 }
      inAdvanceInt := 0
      inAdvanceFrac := 0
      inTimeInt := 0
      inTimeFrac := 0
      x0 := []
      x1 := []
      lpfDelay := [] }

namespace Resampler

/-- From the source: Resampler::new calls sys::ma_resampler_init and then
returns Ok(resampler.assume_init()) without inspecting the returned
result code, so the error of a failed initialization is discarded and the
assumed-initialized value is returned as a success. -/
def new (config : ResamplerConfig) : Except Error MaResampler :=
  match ma_resampler_init config with
  | .ok r => .ok r
  | .error _ => .ok uninitMaResampler

/-- From the source: Resampler::process_pcm_frames forwards the buffers to
ma_resampler_process_pcm_frames and returns the counts it reports. -/
def process_pcm_frames (r : MaResampler) (outCap : Nat) (input : List Frame) :
    Except Error (PcmResult MaResampler) :=
  .ok (ma_resampler_process_pcm_frames r outCap input)

/-- From the source: Resampler::set_rate forwards to ma_resampler_set_rate
and propagates its error through Error::from_c_result. -/
def set_rate (r : MaResampler) (sampleRateIn sampleRateOut : Nat) :
    Except Error MaResampler :=
  ma_resampler_set_rate r sampleRateIn sampleRateOut

/-- From the source: Resampler::required_input_frame_count calls the
engine-level C query ma_resampler_get_required_input_frame_count. -/
def required_input_frame_count (r : MaResampler) (outputFrameCount : Nat) : Nat :=
  ma_resampler_get_required_input_frame_count r outputFrameCount

/-- From the source: Resampler::expected_output_frame_count calls
ma_linear_resampler_get_expected_output_frame_count on the engine pointer
cast to a linear-resampler pointer, not the engine-level dispatching
query. -/
def expected_output_frame_count (r : MaResampler) (inputFrameCount : Nat) : Nat :=
  ma_linear_resampler_get_expected_output_frame_count (resamplerAsLinearView r)
    inputFrameCount

/-- From the source: Resampler::input_latency calls
ma_linear_resampler_get_input_latency on the engine pointer cast to a
linear-resampler pointer, not the engine-level dispatching query. -/
def input_latency (r : MaResampler) : Nat :=
  ma_linear_resampler_get_input_latency (resamplerAsLinearView r)

/-- From the source: Resampler::output_latency calls
ma_linear_resampler_get_output_latency on the engine pointer cast to a
linear-resampler pointer, not the engine-level dispatching query. -/
def output_latency (r : MaResampler) : Nat :=
  ma_linear_resampler_get_output_latency (resamplerAsLinearView r)

/-- From the source: the Clone implementation of Resampler builds a fresh
instance from the stored configuration only, via
Self::new(self.config()). -/
def clone (r : MaResampler) : Except Error MaResampler :=
  new r.config

end Resampler

/-- A freshly initialized mono resampler halving the rate (44100 to
22050), low-pass filtering disabled: the value ma_linear_resampler_init
returns for that configuration. -/
def witnessDownsampler : MaLinearResampler :=
  { config :=
      { format := .f32
        channels := 1
        sampleRateIn := 44100
        sampleRateOut := 22050
        lpfOrder := 0
        lpfNyquistFactor := 1 }
    inAdvanceInt := 2
    inAdvanceFrac := 0
    inTimeInt := 2
    inTimeFrac := 0
    x0 := [0]
    x1 := [0]
    lpfDelay := [] }

/-- A freshly initialized mono resampler doubling the rate (1 to 2),
low-pass filtering disabled: the value ma_linear_resampler_init returns
for that configuration. -/
def witnessUpsampler : MaLinearResampler :=
  { config :=
      { format := .f32
        channels := 1
        sampleRateIn := 1
        sampleRateOut := 2
        lpfOrder := 0
        lpfNyquistFactor := 1 }
    inAdvanceInt := 0
    inAdvanceFrac := 1
    inTimeInt := 2
    inTimeFrac := 0
    x0 := [0]
    x1 := [0]
    lpfDelay := [] }

/-- A freshly initialized stereo resampler at equal rates (8000 to 8000),
low-pass filtering disabled: the value ma_linear_resampler_init returns
for that configuration. -/
def witnessUnityResampler : MaLinearResampler :=
  { config :=
      { format := .f32
        channels := 2
        sampleRateIn := 8000
        sampleRateOut := 8000
        lpfOrder := 0
        lpfNyquistFactor := 1 }
    inAdvanceInt := 1
    inAdvanceFrac := 0
    inTimeInt := 2
    inTimeFrac := 0
    x0 := [0, 0]
    x1 := [0, 0]
    lpfDelay := [] }

/-- A linear resampler mid-stream: valid configuration, but a read
position, window and delay history that differ from the freshly
initialized values. -/
def witnessDirtyLinear : MaLinearResampler :=
  { config :=
      { format := .s16
        channels := 1
        sampleRateIn := 3
        sampleRateOut := 2
        lpfOrder := 0
        lpfNyquistFactor := 1 }
    inAdvanceInt := 1
    inAdvanceFrac := 1
    inTimeInt := 7
    inTimeFrac := 1
    x0 := [5]
    x1 := [6]
    lpfDelay := [[7]] }

/-- An engine mid-stream holding a linear algorithm state that differs
from the freshly initialized one. -/
def witnessDirtyEngine : MaResampler :=
  { config :=
      { format := .s16
        channels := 1
        sampleRateIn := 3
        sampleRateOut := 2
        algorithm := .linear
        linearLpfOrder := 0
        linearLpfNyquistFactor := 1
        speexQuality := 3 }
    state := .linear
      { config :=
          { format := .s16
            channels := 1
            sampleRateIn := 3
            sampleRateOut := 2
            lpfOrder := 0
            lpfNyquistFactor := 1 }
        inAdvanceInt := 1
        inAdvanceFrac := 1
        inTimeInt := 9
        inTimeFrac := 1
        x0 := [5]
        x1 := [6]
        lpfDelay := [[7]] }}

/-- An engine configured with the band-limited (Speex) algorithm whose
backend reports input latency 5 and output latency 9. -/
def witnessSpeexEngine : MaResampler :=
  { config :=
      { format := .f32
        channels := 2
        sampleRateIn := 44100
        sampleRateOut := 48000
        algorithm := .speex
        linearLpfOrder := 4
        linearLpfNyquistFactor := 1
        speexQuality := 3 }
    state := .speex
      { quality := 3
        sampleRateIn := 44100
        sampleRateOut := 48000
        reportedInputLatency := 5
        reportedOutputLatency := 9 } }

/-- The configuration the failing construction of claim C1 uses: input
rate zero, a valid output rate, the linear algorithm. -/
def cfgZeroRate : ResamplerConfig :=
  ResamplerConfig.new .f32 2 0 44100 .linear

/-- The value LinearResampler::set_rate returns for witnessDirtyLinear at
the new rates 5 and 7: rates and advance updated, read position kept and
rescaled to the new denominator. -/
def setRateResultLinear : MaLinearResampler :=
  { config :=
      { format := .s16
        channels := 1
        sampleRateIn := 5
        sampleRateOut := 7
        lpfOrder := 0
        lpfNyquistFactor := 1 }
    inAdvanceInt := 0
    inAdvanceFrac := 5
    inTimeInt := 7
    inTimeFrac := 3
    x0 := [5]
    x1 := [6]
    lpfDelay := [[7]] }

/-- The value Resampler::set_rate returns for witnessDirtyEngine at the
new rates 5 and 7. -/
def setRateResultEngine : MaResampler :=
  { config :=
      { format := .s16
        channels := 1
        sampleRateIn := 5
        sampleRateOut := 7
        algorithm := .linear
        linearLpfOrder := 0
        linearLpfNyquistFactor := 1
        speexQuality := 3 }
    state := .linear
      { config :=
          { format := .s16
            channels := 1
            sampleRateIn := 5
            sampleRateOut := 7
            lpfOrder := 0
            lpfNyquistFactor := 1 }
        inAdvanceInt := 0
        inAdvanceFrac := 5
        inTimeInt := 9
        inTimeFrac := 3
        x0 := [5]
        x1 := [6]
        lpfDelay := [[7]] } }

/-- The closed form of the expected-output query over plain fixed-point
state components, used to relate the query to the processing loop. -/
def expectedCount (advInt advFrac den tInt tFrac m : Nat) : Nat :=
  if tInt ≤ m + 1 ∧ tFrac ≤ (m + 1 - tInt) * den then
    ((m + 1 - tInt) * den - tFrac) / (advInt * den + advFrac) + 1
  else 0

/-! ### Loop lemmas

Step equations for the per-output-frame loop and the facts the claim
theorems rest on: the produced count is bounded by the fuel, a run that
stops short of its fuel has drained the whole input, and such a run is
unchanged by giving it more fuel. -/

theorem processGo_zero (advInt advFrac den tInt tFrac : Nat) (x0 x1 : Frame)
    (input : List Frame) :
    processGo advInt advFrac den 0 tInt tFrac x0 x1 input =
      ⟨[], tInt, tFrac, x0, x1, input⟩ := rfl

theorem processGo_succ_produce (advInt advFrac den fuel tInt tFrac : Nat)
    (x0 x1 : Frame) (input : List Frame)
    (h : loadCount tInt tFrac ≤ input.length) :
    processGo advInt advFrac den (fuel + 1) tInt tFrac x0 x1 input =
      { processGo advInt advFrac den fuel
          (tInt - loadCount tInt tFrac + advInt + stepCarry den tFrac advFrac)
          (tFrac + advFrac - stepCarry den tFrac advFrac * den)
          (shiftIn x0 x1 input (loadCount tInt tFrac)).1
          (shiftIn x0 x1 input (loadCount tInt tFrac)).2.1
          (shiftIn x0 x1 input (loadCount tInt tFrac)).2.2 with
        outs := outOf tInt tFrac den
            (shiftIn x0 x1 input (loadCount tInt tFrac)).1
            (shiftIn x0 x1 input (loadCount tInt tFrac)).2.1 ::
          (processGo advInt advFrac den fuel
            (tInt - loadCount tInt tFrac + advInt + stepCarry den tFrac advFrac)
            (tFrac + advFrac - stepCarry den tFrac advFrac * den)
            (shiftIn x0 x1 input (loadCount tInt tFrac)).1
            (shiftIn x0 x1 input (loadCount tInt tFrac)).2.1
            (shiftIn x0 x1 input (loadCount tInt tFrac)).2.2).outs } := by
  simp only [processGo, h, if_true]

theorem processGo_succ_stop (advInt advFrac den fuel tInt tFrac : Nat)
    (x0 x1 : Frame) (input : List Frame)
    (h : ¬ loadCount tInt tFrac ≤ input.length) :
    processGo advInt advFrac den (fuel + 1) tInt tFrac x0 x1 input =
      ⟨[], tInt - input.length, tFrac,
        (shiftIn x0 x1 input input.length).1,
        (shiftIn x0 x1 input input.length).2.1, []⟩ := by
  simp only [processGo, h, if_false]

theorem processGo_outs_length (advInt advFrac den : Nat) :
    ∀ (fuel tInt tFrac : Nat) (x0 x1 : Frame) (input : List Frame),
      (processGo advInt advFrac den fuel tInt tFrac x0 x1 input).outs.length ≤ fuel := by
  intro fuel
  induction fuel with
  | zero => intro tInt tFrac x0 x1 input; simp [processGo_zero]
  | succ n ih =>
    intro tInt tFrac x0 x1 input
    by_cases h : loadCount tInt tFrac ≤ input.length
    · rw [processGo_succ_produce advInt advFrac den n tInt tFrac x0 x1 input h]
      simpa using Nat.succ_le_succ (ih _ _ _ _ _)
    · rw [processGo_succ_stop advInt advFrac den n tInt tFrac x0 x1 input h]
      simp

theorem processGo_rem_nil (advInt advFrac den : Nat) :
    ∀ (fuel tInt tFrac : Nat) (x0 x1 : Frame) (input : List Frame),
      (processGo advInt advFrac den fuel tInt tFrac x0 x1 input).outs.length < fuel →
      (processGo advInt advFrac den fuel tInt tFrac x0 x1 input).rem = [] := by
  intro fuel
  induction fuel with
  | zero => intro tInt tFrac x0 x1 input h; exact absurd h (Nat.not_lt_zero _)
  | succ n ih =>
    intro tInt tFrac x0 x1 input h
    by_cases hl : loadCount tInt tFrac ≤ input.length
    · rw [processGo_succ_produce advInt advFrac den n tInt tFrac x0 x1 input hl] at h ⊢
      simp only [List.length_cons] at h
      exact ih _ _ _ _ _ (Nat.lt_of_succ_lt_succ h)
    · rw [processGo_succ_stop advInt advFrac den n tInt tFrac x0 x1 input hl]

theorem processGo_fuel_add (advInt advFrac den : Nat) (k : Nat) :
    ∀ (fuel tInt tFrac : Nat) (x0 x1 : Frame) (input : List Frame),
      (processGo advInt advFrac den fuel tInt tFrac x0 x1 input).outs.length < fuel →
      processGo advInt advFrac den (fuel + k) tInt tFrac x0 x1 input =
        processGo advInt advFrac den fuel tInt tFrac x0 x1 input := by
  intro fuel
  induction fuel with
  | zero => intro tInt tFrac x0 x1 input h; exact absurd h (Nat.not_lt_zero _)
  | succ n ih =>
    intro tInt tFrac x0 x1 input h
    have hstep : n + 1 + k = (n + k) + 1 := by omega
    by_cases hl : loadCount tInt tFrac ≤ input.length
    · rw [processGo_succ_produce advInt advFrac den n tInt tFrac x0 x1 input hl] at h ⊢
      rw [hstep, processGo_succ_produce advInt advFrac den (n + k) tInt tFrac x0 x1 input hl]
      simp only [List.length_cons] at h
      rw [ih _ _ _ _ _ (Nat.lt_of_succ_lt_succ h)]
    · rw [processGo_succ_stop advInt advFrac den n tInt tFrac x0 x1 input hl]
      rw [hstep, processGo_succ_stop advInt advFrac den (n + k) tInt tFrac x0 x1 input hl]

theorem processGo_ample_eq (advInt advFrac den : Nat)
    (fuelA fuelB tInt tFrac : Nat) (x0 x1 : Frame) (input : List Frame)
    (hA : (processGo advInt advFrac den fuelA tInt tFrac x0 x1 input).outs.length < fuelA)
    (hB : (processGo advInt advFrac den fuelB tInt tFrac x0 x1 input).outs.length < fuelB) :
    processGo advInt advFrac den fuelA tInt tFrac x0 x1 input =
      processGo advInt advFrac den fuelB tInt tFrac x0 x1 input := by
  have h1 := processGo_fuel_add advInt advFrac den (max fuelA fuelB - fuelA)
    fuelA tInt tFrac x0 x1 input hA
  have h2 := processGo_fuel_add advInt advFrac den (max fuelA fuelB - fuelB)
    fuelB tInt tFrac x0 x1 input hB
  have e1 : fuelA + (max fuelA fuelB - fuelA) = max fuelA fuelB := by omega
  have e2 : fuelB + (max fuelA fuelB - fuelB) = max fuelA fuelB := by omega
  rw [e1] at h1
  rw [e2] at h2
  rw [← h1, h2]

theorem shiftIn_append_le :
    ∀ (count : Nat) (x0 x1 : Frame) (inp1 inp2 : List Frame), count ≤ inp1.length →
      shiftIn x0 x1 (inp1 ++ inp2) count =
        ((shiftIn x0 x1 inp1 count).1, (shiftIn x0 x1 inp1 count).2.1,
          (shiftIn x0 x1 inp1 count).2.2 ++ inp2)
  | 0, x0, x1, inp1, inp2, _ => by simp [shiftIn]
  | count + 1, x0, x1, [], inp2, h => absurd h (by simp)
  | count + 1, x0, x1, a :: tl, inp2, h => by
    simp only [List.cons_append, shiftIn]
    exact shiftIn_append_le count x1 a tl inp2 (by simpa using h)

theorem shiftIn_append_ge :
    ∀ (inp1 : List Frame) (count : Nat) (x0 x1 : Frame) (inp2 : List Frame),
      inp1.length ≤ count →
      shiftIn x0 x1 (inp1 ++ inp2) count =
        shiftIn (shiftIn x0 x1 inp1 inp1.length).1
          (shiftIn x0 x1 inp1 inp1.length).2.1 inp2 (count - inp1.length)
  | [], count, x0, x1, inp2, _ => by simp [shiftIn]
  | a :: tl, 0, x0, x1, inp2, h => absurd h (by simp)
  | a :: tl, count + 1, x0, x1, inp2, h => by
    simp only [List.cons_append, shiftIn, List.length_cons, Nat.succ_sub_succ]
    exact shiftIn_append_ge tl count x1 a inp2 (by simpa using h)

theorem loadCount_le_tInt (tInt tFrac : Nat) : loadCount tInt tFrac ≤ tInt := by
  unfold loadCount
  split <;> omega

theorem loadCount_sub (tInt tFrac n : Nat) (h : n < loadCount tInt tFrac) :
    loadCount (tInt - n) tFrac = loadCount tInt tFrac - n := by
  unfold loadCount at h ⊢
  by_cases hf : tFrac = 0
  · simp only [if_pos hf] at h ⊢
    omega
  · simp only [if_neg hf] at h ⊢

theorem outOf_sub (tInt tFrac den n : Nat) (y0 y1 : Frame)
    (h : n < loadCount tInt tFrac) :
    outOf (tInt - n) tFrac den y0 y1 = outOf tInt tFrac den y0 y1 := by
  unfold loadCount at h
  unfold outOf
  by_cases hf : tFrac = 0
  · simp only [hf, if_true] at h
    have h1 : 1 ≤ tInt := by omega
    have h2 : 1 ≤ tInt - n := by omega
    simp [hf, h1, h2]
  · simp [hf]

theorem processGo_after_drain (advInt advFrac den : Nat) (g tInt tFrac : Nat)
    (x0 x1 : Frame) (inp s2 : List Frame)
    (hL : inp.length < loadCount tInt tFrac) (hg : 1 ≤ g) :
    processGo advInt advFrac den g tInt tFrac x0 x1 (inp ++ s2) =
      processGo advInt advFrac den g (tInt - inp.length) tFrac
        (shiftIn x0 x1 inp inp.length).1 (shiftIn x0 x1 inp inp.length).2.1 s2 := by
  obtain ⟨g, rfl⟩ : ∃ k, g = k + 1 := ⟨g - 1, by omega⟩
  have hLt := loadCount_le_tInt tInt tFrac
  have hsub := loadCount_sub tInt tFrac inp.length hL
  by_cases hs : loadCount tInt tFrac ≤ inp.length + s2.length
  · have hLHS : loadCount tInt tFrac ≤ (inp ++ s2).length := by
      simpa [List.length_append] using hs
    have hRHS : loadCount (tInt - inp.length) tFrac ≤ s2.length := by omega
    rw [processGo_succ_produce advInt advFrac den g tInt tFrac x0 x1 (inp ++ s2) hLHS]
    rw [processGo_succ_produce advInt advFrac den g (tInt - inp.length) tFrac
      (shiftIn x0 x1 inp inp.length).1 (shiftIn x0 x1 inp inp.length).2.1 s2 hRHS]
    rw [shiftIn_append_ge inp (loadCount tInt tFrac) x0 x1 s2 (Nat.le_of_lt hL)]
    rw [hsub]
    rw [outOf_sub tInt tFrac den inp.length _ _ hL]
    have e1 : tInt - inp.length - (loadCount tInt tFrac - inp.length) =
        tInt - loadCount tInt tFrac := by omega
    rw [e1]
  · have hLHS : ¬ loadCount tInt tFrac ≤ (inp ++ s2).length := by
      simpa [List.length_append] using hs
    have hRHS : ¬ loadCount (tInt - inp.length) tFrac ≤ s2.length := by omega
    rw [processGo_succ_stop advInt advFrac den g tInt tFrac x0 x1 (inp ++ s2) hLHS]
    rw [processGo_succ_stop advInt advFrac den g (tInt - inp.length) tFrac
      (shiftIn x0 x1 inp inp.length).1 (shiftIn x0 x1 inp inp.length).2.1 s2 hRHS]
    have e2 : (inp ++ s2).length = inp.length + s2.length := by simp
    rw [e2, shiftIn_append_ge inp (inp.length + s2.length) x0 x1 s2 (by omega)]
    have e3 : inp.length + s2.length - inp.length = s2.length := by omega
    have e4 : tInt - (inp.length + s2.length) = tInt - inp.length - s2.length := by omega
    rw [e3, e4]

theorem processGo_split (advInt advFrac den : Nat) (s2 : List Frame) (g : Nat)
    (hg : 1 ≤ g) :
    ∀ (fuel tInt tFrac : Nat) (x0 x1 : Frame) (s1 : List Frame) (r1 : LoopResult),
      processGo advInt advFrac den fuel tInt tFrac x0 x1 s1 = r1 →
      r1.outs.length < fuel →
      processGo advInt advFrac den (r1.outs.length + g) tInt tFrac x0 x1 (s1 ++ s2) =
        { processGo advInt advFrac den g r1.tInt r1.tFrac r1.x0 r1.x1 s2 with
          outs := r1.outs ++
            (processGo advInt advFrac den g r1.tInt r1.tFrac r1.x0 r1.x1 s2).outs } := by
  intro fuel
  induction fuel with
  | zero =>
    intro tInt tFrac x0 x1 s1 r1 hr1 h
    exact absurd h (Nat.not_lt_zero _)
  | succ n ih =>
    intro tInt tFrac x0 x1 s1 r1 hr1 h
    by_cases hl : loadCount tInt tFrac ≤ s1.length
    · rw [processGo_succ_produce advInt advFrac den n tInt tFrac x0 x1 s1 hl] at hr1
      subst hr1
      simp only [List.length_cons] at h
      have h2 := Nat.lt_of_succ_lt_succ h
      have hstep : (outOf tInt tFrac den (shiftIn x0 x1 s1 (loadCount tInt tFrac)).1
            (shiftIn x0 x1 s1 (loadCount tInt tFrac)).2.1 ::
          (processGo advInt advFrac den n
            (tInt - loadCount tInt tFrac + advInt + stepCarry den tFrac advFrac)
            (tFrac + advFrac - stepCarry den tFrac advFrac * den)
            (shiftIn x0 x1 s1 (loadCount tInt tFrac)).1
            (shiftIn x0 x1 s1 (loadCount tInt tFrac)).2.1
            (shiftIn x0 x1 s1 (loadCount tInt tFrac)).2.2).outs).length + g =
          ((processGo advInt advFrac den n
            (tInt - loadCount tInt tFrac + advInt + stepCarry den tFrac advFrac)
            (tFrac + advFrac - stepCarry den tFrac advFrac * den)
            (shiftIn x0 x1 s1 (loadCount tInt tFrac)).1
            (shiftIn x0 x1 s1 (loadCount tInt tFrac)).2.1
            (shiftIn x0 x1 s1 (loadCount tInt tFrac)).2.2).outs.length + g) + 1 := by
        simp only [List.length_cons]
        omega
      rw [hstep]
      rw [processGo_succ_produce advInt advFrac den _ tInt tFrac x0 x1 (s1 ++ s2)
        (by simp only [List.length_append]; omega)]
      rw [shiftIn_append_le (loadCount tInt tFrac) x0 x1 s1 s2 hl]
      rw [ih _ _ _ _ _ _ rfl h2]
      rfl
    · rw [processGo_succ_stop advInt advFrac den n tInt tFrac x0 x1 s1 hl] at hr1
      subst hr1
      simp only [List.length_nil, List.nil_append, Nat.zero_add]
      rw [processGo_after_drain advInt advFrac den g tInt tFrac x0 x1 s1 s2
        (by omega) hg]

/-- A processing call whose produced count stays below the output capacity
has stopped because the input was exhausted: the whole input was consumed
and the resulting state is exactly the final loop state. -/
theorem maLinearProcessFrames_ample (lr : MaLinearResampler) (outCap : Nat)
    (input : List Frame)
    (h : (maLinearProcessFrames lr outCap input).produced < outCap) :
    maLinearProcessFrames lr outCap input =
      { state :=
          { lr with
            inTimeInt := (processGo lr.inAdvanceInt lr.inAdvanceFrac
              lr.config.sampleRateOut outCap lr.inTimeInt lr.inTimeFrac
              lr.x0 lr.x1 input).tInt
            inTimeFrac := (processGo lr.inAdvanceInt lr.inAdvanceFrac
              lr.config.sampleRateOut outCap lr.inTimeInt lr.inTimeFrac
              lr.x0 lr.x1 input).tFrac
            x0 := (processGo lr.inAdvanceInt lr.inAdvanceFrac
              lr.config.sampleRateOut outCap lr.inTimeInt lr.inTimeFrac
              lr.x0 lr.x1 input).x0
            x1 := (processGo lr.inAdvanceInt lr.inAdvanceFrac
              lr.config.sampleRateOut outCap lr.inTimeInt lr.inTimeFrac
              lr.x0 lr.x1 input).x1 }
        consumed := input.length
        produced := (processGo lr.inAdvanceInt lr.inAdvanceFrac
          lr.config.sampleRateOut outCap lr.inTimeInt lr.inTimeFrac
          lr.x0 lr.x1 input).outs.length
        outFrames := (processGo lr.inAdvanceInt lr.inAdvanceFrac
          lr.config.sampleRateOut outCap lr.inTimeInt lr.inTimeFrac
          lr.x0 lr.x1 input).outs } := by
  have hlen : (processGo lr.inAdvanceInt lr.inAdvanceFrac lr.config.sampleRateOut
      outCap lr.inTimeInt lr.inTimeFrac lr.x0 lr.x1 input).outs.length < outCap := h
  have hrem := processGo_rem_nil lr.inAdvanceInt lr.inAdvanceFrac
    lr.config.sampleRateOut outCap lr.inTimeInt lr.inTimeFrac lr.x0 lr.x1 input hlen
  simp only [maLinearProcessFrames]
  rw [hrem]
  simp only [List.length_nil, Nat.sub_zero]
  have hcmax : max input.length
      (min ((processGo lr.inAdvanceInt lr.inAdvanceFrac lr.config.sampleRateOut
        outCap lr.inTimeInt lr.inTimeFrac lr.x0 lr.x1 input).tInt + input.length)
        (input.length + 2) - 2) = input.length := by omega
  rw [hcmax]
  have htint : (processGo lr.inAdvanceInt lr.inAdvanceFrac lr.config.sampleRateOut
        outCap lr.inTimeInt lr.inTimeFrac lr.x0 lr.x1 input).tInt + input.length -
      input.length = (processGo lr.inAdvanceInt lr.inAdvanceFrac
        lr.config.sampleRateOut outCap lr.inTimeInt lr.inTimeFrac
        lr.x0 lr.x1 input).tInt := by omega
  rw [htint]

/-- Claim C5.  Processing is lossless across call boundaries: splitting an
input stream at any point into two process_pcm_frames calls, each with an
output buffer larger than it fills, consumes the two chunks in full and
yields exactly the output frames and total consumed count of one call over
the whole stream. -/
theorem split_processing_lossless (lr : MaLinearResampler)
    (cap1 cap2 capF : Nat) (s1 s2 : List Frame)
    (h1 : (maLinearProcessFrames lr cap1 s1).produced < cap1)
    (h2 : (maLinearProcessFrames (maLinearProcessFrames lr cap1 s1).state
      cap2 s2).produced < cap2)
    (hF : (maLinearProcessFrames lr capF (s1 ++ s2)).produced < capF) :
    (maLinearProcessFrames lr capF (s1 ++ s2)).outFrames =
      (maLinearProcessFrames lr cap1 s1).outFrames ++
        (maLinearProcessFrames (maLinearProcessFrames lr cap1 s1).state
          cap2 s2).outFrames ∧
    (maLinearProcessFrames lr capF (s1 ++ s2)).consumed =
      (maLinearProcessFrames lr cap1 s1).consumed +
        (maLinearProcessFrames (maLinearProcessFrames lr cap1 s1).state
          cap2 s2).consumed ∧
    (maLinearProcessFrames lr cap1 s1).consumed = s1.length := by
  have e1 := maLinearProcessFrames_ample lr cap1 s1 h1
  have hg : 1 ≤ cap2 := by omega
  set A := lr.inAdvanceInt
  set B := lr.inAdvanceFrac
  set D := lr.config.sampleRateOut
  set r1 := processGo A B D cap1 lr.inTimeInt lr.inTimeFrac lr.x0 lr.x1 s1 with hr1def
  have hP1outs : (maLinearProcessFrames lr cap1 s1).outFrames = r1.outs := by
    rw [e1]
  have hP1cons : (maLinearProcessFrames lr cap1 s1).consumed = s1.length := by
    rw [e1]
  have hr1len : r1.outs.length < cap1 := h1
  have hstate : (maLinearProcessFrames lr cap1 s1).state =
      { lr with
        inTimeInt := r1.tInt
        inTimeFrac := r1.tFrac
        x0 := r1.x0
        x1 := r1.x1 } := by
    rw [e1]
  set r2 := processGo A B D cap2 r1.tInt r1.tFrac r1.x0 r1.x1 s2 with hr2def
  have h2r : (maLinearProcessFrames (maLinearProcessFrames lr cap1 s1).state
      cap2 s2).produced = r2.outs.length := by
    rw [hstate]
    rfl
  have hr2len : r2.outs.length < cap2 := by rw [← h2r]; exact h2
  have e2 : maLinearProcessFrames (maLinearProcessFrames lr cap1 s1).state cap2 s2 =
      { state :=
          { (maLinearProcessFrames lr cap1 s1).state with
            inTimeInt := r2.tInt
            inTimeFrac := r2.tFrac
            x0 := r2.x0
            x1 := r2.x1 }
        consumed := s2.length
        produced := r2.outs.length
        outFrames := r2.outs } := by
    have := maLinearProcessFrames_ample (maLinearProcessFrames lr cap1 s1).state
      cap2 s2 h2
    rw [hstate] at this ⊢
    exact this
  have hsplit := processGo_split A B D s2 cap2 hg cap1 lr.inTimeInt lr.inTimeFrac
    lr.x0 lr.x1 s1 r1 hr1def.symm hr1len
  have hcomb : (processGo A B D (r1.outs.length + cap2) lr.inTimeInt lr.inTimeFrac
      lr.x0 lr.x1 (s1 ++ s2)).outs.length < r1.outs.length + cap2 := by
    rw [hsplit]
    simp only [List.length_append]
    rw [← hr2def]
    omega
  set rF := processGo A B D capF lr.inTimeInt lr.inTimeFrac lr.x0 lr.x1 (s1 ++ s2)
    with hrFdef
  have hrFlen : rF.outs.length < capF := hF
  have hample := processGo_ample_eq A B D capF (r1.outs.length + cap2)
    lr.inTimeInt lr.inTimeFrac lr.x0 lr.x1 (s1 ++ s2) hrFlen hcomb
  have hrF : rF = { r2 with outs := r1.outs ++ r2.outs } := by
    rw [hrFdef, hample, hsplit, ← hr2def]
  have eF := maLinearProcessFrames_ample lr capF (s1 ++ s2) hF
  refine ⟨?_, ?_, hP1cons⟩
  · rw [eF, hP1outs, e2]
    simp only [← hrFdef, hrF]
  · rw [eF, hP1cons, e2]
    simp [List.length_append]

/-- Claim C3.  Every processing call stays within the buffer bounds: the
Rust wrappers return the counts of the dispatched algorithm call, and for
both the linear resampler and the engine the consumed count never exceeds
the input frame count and the produced count never exceeds the output
capacity. -/
theorem process_counts_within_bounds :
    (∀ (lr : MaLinearResampler) (outCap : Nat) (input : List Frame),
      LinearResampler.process_pcm_frames lr outCap input =
        .ok (maLinearProcessFrames lr outCap input)) ∧
    (∀ (lr : MaLinearResampler) (outCap : Nat) (input : List Frame),
      (maLinearProcessFrames lr outCap input).consumed ≤ input.length ∧
      (maLinearProcessFrames lr outCap input).produced ≤ outCap) ∧
    (∀ (r : MaResampler) (outCap : Nat) (input : List Frame),
      Resampler.process_pcm_frames r outCap input =
        .ok (ma_resampler_process_pcm_frames r outCap input)) ∧
    (∀ (r : MaResampler) (outCap : Nat) (input : List Frame),
      (ma_resampler_process_pcm_frames r outCap input).consumed ≤ input.length ∧
      (ma_resampler_process_pcm_frames r outCap input).produced ≤ outCap) := by
  have hlin : ∀ (lr : MaLinearResampler) (outCap : Nat) (input : List Frame),
      (maLinearProcessFrames lr outCap input).consumed ≤ input.length ∧
      (maLinearProcessFrames lr outCap input).produced ≤ outCap := by
    intro lr outCap input
    have houts := processGo_outs_length lr.inAdvanceInt lr.inAdvanceFrac
      lr.config.sampleRateOut outCap lr.inTimeInt lr.inTimeFrac lr.x0 lr.x1 input
    simp only [maLinearProcessFrames]
    constructor
    · omega
    · exact houts
  refine ⟨fun _ _ _ => rfl, hlin, fun _ _ _ => rfl, ?_⟩
  intro r outCap input
  match hst : r.state with
  | .linear lr =>
    have := hlin lr outCap input
    simp only [ma_resampler_process_pcm_frames, hst]
    exact this
  | .speex s =>
    simp only [ma_resampler_process_pcm_frames, hst, maSpeexProcessFrames]
    constructor
    · omega
    · omega

/-- Claim C8.  set_speex_quality clamps rather than rejects: the stored
effective quality is min(quality, 10), so 15 is stored as 10, any value
within the range is stored unchanged, and speex_quality reads the clamped
value back. -/
theorem speex_quality_clamped :
    (∀ (c : ResamplerConfig) (quality : Nat),
      (c.set_speex_quality quality).speex_quality = min quality 10) ∧
    (∀ c : ResamplerConfig, (c.set_speex_quality 15).speex_quality = 10) := by
  exact ⟨fun _ _ => rfl, fun _ => rfl⟩

/-- Claim C1.  Resampler::new does not validate: on a configuration with
sample_rate_in equal to zero the C initializer reports an error, yet the
wrapper discards that result and returns Ok with an observable value whose
configuration violates the rate invariant, where the claim and the spec
require a ConfigError.  LinearResampler::new, by contrast, propagates the
error. -/
theorem resampler_new_ignores_init_error :
    ma_resampler_init cfgZeroRate = .error .invalidArgs ∧
    Resampler.new cfgZeroRate = .ok uninitMaResampler ∧
    uninitMaResampler.config.sampleRateIn = 0 ∧
    LinearResampler.new (LinearResamplerConfig.new .f32 2 0 44100) =
      .error .invalidArgs := by
  exact ⟨rfl, rfl, rfl, rfl⟩

/-- Claim C2.  The engine-level latency and expected-output queries do not
delegate to the configured algorithm: on a Speex-configured engine whose
backend reports input latency 5 and output latency 9, the wrapper methods
call the linear-resampler C queries on the type-confused pointer and
return values unrelated to the backend values the spec-level dispatching
queries report. -/
theorem engine_queries_bypass_algorithm_dispatch :
    Resampler.input_latency witnessSpeexEngine = 1 ∧
    ma_resampler_get_input_latency witnessSpeexEngine = 5 ∧
    Resampler.output_latency witnessSpeexEngine = 0 ∧
    ma_resampler_get_output_latency witnessSpeexEngine = 9 ∧
    Resampler.expected_output_frame_count witnessSpeexEngine 44100 = 1 ∧
    ma_resampler_get_expected_output_frame_count witnessSpeexEngine 44100 = 48000 ∧
    Resampler.input_latency witnessSpeexEngine ≠
      ma_resampler_get_input_latency witnessSpeexEngine := by
  refine ⟨rfl, rfl, rfl, rfl, by decide, by decide, by decide⟩

/-- Claim C7.  Concrete downsampling scenario: a fresh mono resampler from
44100 to 22050 with filtering disabled advances by exactly two input
frames per output frame; on the four-frame input with an output capacity
of two it consumes all four input frames and produces the two frames at
input positions zero and two. -/
theorem downsample_by_two_concrete :
    ma_linear_resampler_init
      ((LinearResamplerConfig.new .f32 1 44100 22050).set_lpf_order 0) =
      .ok witnessDownsampler ∧
    witnessDownsampler.inAdvanceInt = 2 ∧
    witnessDownsampler.inAdvanceFrac = 0 ∧
    LinearResampler.process_pcm_frames witnessDownsampler 2
        [[1], [1/2], [-1/2], [-1]] =
      .ok
        { state := { witnessDownsampler with x0 := [1/2], x1 := [-1/2] }
          consumed := 4
          produced := 2
          outFrames := [[1], [-1/2]] } := by
  exact ⟨rfl, rfl, rfl, rfl⟩

/-- At equal rates the loop advances by exactly one input frame per output
frame from the canonical fresh position: it copies the input to the
output, keeps the canonical position, and leaves exactly the frames beyond
the capacity unread. -/
theorem processGo_unity (den : Nat) (hden : 0 < den) :
    ∀ (fuel : Nat) (x0 x1 : Frame) (input : List Frame),
      (processGo 1 0 den fuel 2 0 x0 x1 input).outs = input.take fuel ∧
      (processGo 1 0 den fuel 2 0 x0 x1 input).tInt = 2 ∧
      (processGo 1 0 den fuel 2 0 x0 x1 input).tFrac = 0 ∧
      (processGo 1 0 den fuel 2 0 x0 x1 input).rem = input.drop fuel := by
  intro fuel
  induction fuel with
  | zero =>
    intro x0 x1 input
    simp [processGo_zero]
  | succ n ih =>
    intro x0 x1 input
    have hlc : loadCount 2 0 = 1 := rfl
    have hcarry : stepCarry den 0 0 = 0 := by
      unfold stepCarry
      split <;> omega
    match input with
    | [] =>
      rw [processGo_succ_stop 1 0 den n 2 0 x0 x1 [] (by simp [hlc])]
      simp
    | fr :: rest =>
      rw [processGo_succ_produce 1 0 den n 2 0 x0 x1 (fr :: rest) (by simp [hlc])]
      have hout : outOf 2 0 den x1 fr = fr := by
        unfold outOf
        rw [if_pos ⟨rfl, by omega⟩]
      have harg : 2 - loadCount 2 0 + 1 + stepCarry den 0 0 = 2 := by
        rw [hlc, hcarry]
      have harg2 : 0 + 0 - stepCarry den 0 0 * den = 0 := by
        rw [hcarry]
        omega
      rw [harg, harg2, hlc]
      dsimp only
      have hs1 : shiftIn x0 x1 (fr :: rest) 1 = (x1, fr, rest) := by
        simp [shiftIn]
      rw [hs1]
      dsimp only
      obtain ⟨o1, o2, o3, o4⟩ := ih x1 fr rest
      refine ⟨?_, o2, o3, ?_⟩
      · rw [hout, o1, List.take_succ_cons]
      · rw [o4, List.drop_succ_cons]

/-- Claim C4.  At equal rates with low-pass filtering disabled a freshly
constructed resampler is the identity transform: the produced frames are
exactly the first min(capacity, count) input frames, sample for sample,
and the consumed and produced counts both equal that minimum. -/
theorem unity_rate_identity (fmt : Format) (ch rate outCap : Nat)
    (input : List Frame) (lr : MaLinearResampler) (hrate : 0 < rate)
    (hinit : LinearResampler.new
      ((LinearResamplerConfig.new fmt ch rate rate).set_lpf_order 0) = .ok lr) :
    (maLinearProcessFrames lr outCap input).outFrames = input.take outCap ∧
    (maLinearProcessFrames lr outCap input).consumed = min outCap input.length ∧
    (maLinearProcessFrames lr outCap input).produced = min outCap input.length := by
  have hlr : lr =
      { config := (LinearResamplerConfig.new fmt ch rate rate).set_lpf_order 0
        inAdvanceInt := 1
        inAdvanceFrac := 0
        inTimeInt := 2
        inTimeFrac := 0
        x0 := List.replicate ch 0
        x1 := List.replicate ch 0
        lpfDelay := [] } := by
    unfold LinearResampler.new ma_linear_resampler_init at hinit
    rw [if_neg (by simp [LinearResamplerConfig.new, LinearResamplerConfig.set_lpf_order]; omega)]
      at hinit
    have := hinit.symm
    injection this with h2
    rw [h2]
    simp [LinearResamplerConfig.new, LinearResamplerConfig.set_lpf_order,
      Nat.div_self hrate, Nat.mod_self]
  subst hlr
  have hu := processGo_unity rate hrate outCap (List.replicate ch 0)
    (List.replicate ch 0) input
  simp only [maLinearProcessFrames] at *
  obtain ⟨o1, o2, o3, o4⟩ := hu
  simp only [LinearResamplerConfig.set_lpf_order, LinearResamplerConfig.new] at o1 o2 o3 o4 ⊢
  rw [o1, o2, o4]
  have hlen : (List.drop outCap input).length = input.length - outCap :=
    List.length_drop _ _
  have htake : (List.take outCap input).length = min outCap input.length :=
    List.length_take _ _
  refine ⟨rfl, by rw [hlen]; omega, htake⟩

/-- The ceiling division of u by d, multiplied back by d, is at least u. -/
theorem ceil_mul_ge (u d : Nat) (hd : 0 < d) : u ≤ (u + d - 1) / d * d := by
  have h1 := Nat.div_add_mod (u + d - 1) d
  have h2 : (u + d - 1) % d < d := Nat.mod_lt _ hd
  rw [Nat.mul_comm]
  generalize hq : (u + d - 1) / d = q at h1 ⊢
  generalize hr : (u + d - 1) % d = r at h1 h2
  generalize hp : d * q = p at h1 ⊢
  omega

/-- Claim C6.  Frame-count duality: supplying the computed required number
of additional input frames never under-produces the requested number of
output frames, for every resampler state with a positive denominator and a
positive fixed-point advance. -/
theorem frame_count_duality (lr : MaLinearResampler) (n : Nat)
    (hden : 0 < lr.config.sampleRateOut)
    (hstep : 0 < lr.inAdvanceInt * lr.config.sampleRateOut + lr.inAdvanceFrac) :
    n ≤ LinearResampler.expected_output_frame_count lr
      (LinearResampler.required_input_frame_count lr n) := by
  rcases n with _ | k
  · exact Nat.zero_le _
  unfold LinearResampler.expected_output_frame_count
    LinearResampler.required_input_frame_count
    ma_linear_resampler_get_expected_output_frame_count
    ma_linear_resampler_get_required_input_frame_count
  simp only [Nat.add_sub_cancel, Nat.succ_ne_zero, if_false]
  generalize lr.config.sampleRateOut = d at hden hstep ⊢
  generalize hsgen : lr.inAdvanceInt * d + lr.inAdvanceFrac = s at hstep ⊢
  generalize lr.inTimeInt = t
  generalize lr.inTimeFrac = f
  have hU : f + k * s ≤ (f + k * s + d - 1) / d * d := ceil_mul_ge (f + k * s) d hden
  generalize hcgen : (f + k * s + d - 1) / d = c at hU ⊢
  clear hsgen hcgen
  by_cases h0 : t + c = 0
  · have ht0 : t = 0 := by omega
    have hc0 : c = 0 := by omega
    subst ht0
    subst hc0
    have hf0 : f = 0 := by omega
    have hks : k * s = 0 := by omega
    have hk0 : k = 0 := by
      rcases Nat.mul_eq_zero.mp hks with h | h
      · exact h
      · omega
    subst hf0
    subst hk0
    rw [if_pos ⟨Nat.zero_le _, Nat.zero_le _⟩]
    exact Nat.succ_le_succ (Nat.zero_le _)
  · have hm : t + c - 1 + 1 - t = c := by omega
    rw [hm]
    have hcond2 : f ≤ c * d := by omega
    rw [if_pos ⟨by omega, hcond2⟩]
    have hdiv : k ≤ (c * d - f) / s := by
      rw [Nat.le_div_iff_mul_le hstep]
      omega
    exact Nat.succ_le_succ hdiv

/-- Claim C9.  Duplication is a reset, not a deep copy: for every
successfully constructible state, clone rebuilds the instance from the
stored configuration alone, so the result carries the same configuration
but a freshly initialized fixed-point position, window and delay history,
regardless of the streaming state of the original. -/
theorem clone_resets_streaming_state :
    (∀ lr : MaLinearResampler,
      lr.config.sampleRateIn ≠ 0 → lr.config.sampleRateOut ≠ 0 →
      LinearResampler.clone lr = .ok
        { config := lr.config
          inAdvanceInt := lr.config.sampleRateIn / lr.config.sampleRateOut
          inAdvanceFrac := lr.config.sampleRateIn % lr.config.sampleRateOut
          inTimeInt := 2
          inTimeFrac := 0
          x0 := List.replicate lr.config.channels 0
          x1 := List.replicate lr.config.channels 0
          lpfDelay := [] }) ∧
    (∀ r : MaResampler,
      r.config.sampleRateIn ≠ 0 → r.config.sampleRateOut ≠ 0 →
      r.config.algorithm = .linear →
      Resampler.clone r = .ok
        { config := r.config
          state := .linear
            { config := r.config.toLinear
              inAdvanceInt := r.config.sampleRateIn / r.config.sampleRateOut
              inAdvanceFrac := r.config.sampleRateIn % r.config.sampleRateOut
              inTimeInt := 2
              inTimeFrac := 0
              x0 := List.replicate r.config.channels 0
              x1 := List.replicate r.config.channels 0
              lpfDelay := [] } }) := by
  constructor
  · intro lr h1 h2
    unfold LinearResampler.clone LinearResampler.new ma_linear_resampler_init
    rw [if_neg (by simp [h1, h2])]
  · intro r h1 h2 halg
    unfold Resampler.clone Resampler.new ma_resampler_init
    rw [if_neg (by simp [h1, h2])]
    rw [halg]
    unfold ma_linear_resampler_init
    rw [if_neg (by simp [ResamplerConfig.toLinear, h1, h2])]
    simp [ResamplerConfig.toLinear]

/-- Claim C10.  The sample format and channel count come from the type
parameters alone: the configuration constructors store exactly the values
computed from the types, and no public mutator of a configuration or of a
resampler built from one changes either field. -/
theorem format_channels_fixed_by_types :
    (∀ (fmt : Format) (ch ri ro : Nat),
      (LinearResamplerConfig.new fmt ch ri ro).format = fmt ∧
      (LinearResamplerConfig.new fmt ch ri ro).channels = ch) ∧
    (∀ (fmt : Format) (ch ri ro : Nat) (alg : ResampleAlgorithm),
      (ResamplerConfig.new fmt ch ri ro alg).format = fmt ∧
      (ResamplerConfig.new fmt ch ri ro alg).channels = ch) ∧
    (∀ (c : LinearResamplerConfig) (k : Nat) (q : ℚ),
      ((c.set_sample_rate_in k).format = c.format ∧
        (c.set_sample_rate_in k).channels = c.channels) ∧
      ((c.set_sample_rate_out k).format = c.format ∧
        (c.set_sample_rate_out k).channels = c.channels) ∧
      ((c.set_lpf_order k).format = c.format ∧
        (c.set_lpf_order k).channels = c.channels) ∧
      ((c.set_lpf_nyquist_factor q).format = c.format ∧
        (c.set_lpf_nyquist_factor q).channels = c.channels)) ∧
    (∀ (c : ResamplerConfig) (k : Nat) (q : ℚ) (alg : ResampleAlgorithm),
      ((c.set_sample_rate_in k).format = c.format ∧
        (c.set_sample_rate_in k).channels = c.channels) ∧
      ((c.set_sample_rate_out k).format = c.format ∧
        (c.set_sample_rate_out k).channels = c.channels) ∧
      ((c.set_algorithm alg).format = c.format ∧
        (c.set_algorithm alg).channels = c.channels) ∧
      ((c.set_linear_lpf_order k).format = c.format ∧
        (c.set_linear_lpf_order k).channels = c.channels) ∧
      ((c.set_linear_lpf_nyquist_factor q).format = c.format ∧
        (c.set_linear_lpf_nyquist_factor q).channels = c.channels) ∧
      ((c.set_speex_quality k).format = c.format ∧
        (c.set_speex_quality k).channels = c.channels)) ∧
    (∀ (lr : MaLinearResampler) (outCap : Nat) (input : List Frame),
      (maLinearProcessFrames lr outCap input).state.config.format = lr.config.format ∧
      (maLinearProcessFrames lr outCap input).state.config.channels =
        lr.config.channels) ∧
    (∀ (lr lr2 : MaLinearResampler) (ri ro : Nat),
      LinearResampler.set_rate lr ri ro = .ok lr2 →
      lr2.config.format = lr.config.format ∧
      lr2.config.channels = lr.config.channels) ∧
    (∀ (r : MaResampler) (outCap : Nat) (input : List Frame),
      (ma_resampler_process_pcm_frames r outCap input).state.config.format =
        r.config.format ∧
      (ma_resampler_process_pcm_frames r outCap input).state.config.channels =
        r.config.channels) ∧
    (∀ (r r2 : MaResampler) (ri ro : Nat),
      Resampler.set_rate r ri ro = .ok r2 →
      r2.config.format = r.config.format ∧
      r2.config.channels = r.config.channels) := by
  refine ⟨fun _ _ _ _ => ⟨rfl, rfl⟩, fun _ _ _ _ _ => ⟨rfl, rfl⟩,
    fun _ _ _ => ⟨⟨rfl, rfl⟩, ⟨rfl, rfl⟩, ⟨rfl, rfl⟩, ⟨rfl, rfl⟩⟩,
    fun _ _ _ _ => ⟨⟨rfl, rfl⟩, ⟨rfl, rfl⟩, ⟨rfl, rfl⟩, ⟨rfl, rfl⟩, ⟨rfl, rfl⟩,
      ⟨rfl, rfl⟩⟩,
    fun _ _ _ => ⟨rfl, rfl⟩, ?_, ?_, ?_⟩
  · intro lr lr2 ri ro h
    unfold LinearResampler.set_rate ma_linear_resampler_set_rate at h
    by_cases hz : ri = 0 ∨ ro = 0
    · rw [if_pos hz] at h
      exact absurd h (by simp)
    · rw [if_neg hz] at h
      injection h with h
      rw [← h]
      exact ⟨rfl, rfl⟩
  · intro r outCap input
    match hst : r.state with
    | .linear lr => simp [ma_resampler_process_pcm_frames, hst]
    | .speex s => simp [ma_resampler_process_pcm_frames, hst]
  · intro r r2 ri ro h
    unfold Resampler.set_rate ma_resampler_set_rate at h
    by_cases hz : ri = 0 ∨ ro = 0
    · rw [if_pos hz] at h
      exact absurd h (by simp)
    · rw [if_neg hz] at h
      match hst : r.state with
      | .linear lr =>
        rw [hst] at h
        simp only [ma_linear_resampler_set_rate, if_neg hz] at h
        injection h with h
        rw [← h]
        exact ⟨rfl, rfl⟩
      | .speex s =>
        rw [hst] at h
        simp only at h
        injection h with h
        rw [← h]
        exact ⟨rfl, rfl⟩

theorem unity_rate_identity_witness :
    (0 : Nat) < 8000 ∧
    LinearResampler.new
      ((LinearResamplerConfig.new .f32 2 8000 8000).set_lpf_order 0) =
      .ok witnessUnityResampler ∧
    (maLinearProcessFrames witnessUnityResampler 3
      [[1, 1], [2, 2], [3, 3]]).outFrames = [[1, 1], [2, 2], [3, 3]] ∧
    (maLinearProcessFrames witnessUnityResampler 3
      [[1, 1], [2, 2], [3, 3]]).consumed = 3 ∧
    (maLinearProcessFrames witnessUnityResampler 3
      [[1, 1], [2, 2], [3, 3]]).produced = 3 := by
  have h := unity_rate_identity .f32 2 8000 3 [[1, 1], [2, 2], [3, 3]]
    witnessUnityResampler (by decide) rfl
  refine ⟨by decide, rfl, ?_, ?_, ?_⟩
  · exact h.1
  · exact h.2.1
  · exact h.2.2

theorem split_processing_lossless_witness :
    (maLinearProcessFrames witnessUpsampler 5 [[1]]).produced < 5 ∧
    (maLinearProcessFrames (maLinearProcessFrames witnessUpsampler 5 [[1]]).state
      5 [[3]]).produced < 5 ∧
    (maLinearProcessFrames witnessUpsampler 10 ([[1]] ++ [[3]])).produced < 10 ∧
    (maLinearProcessFrames witnessUpsampler 10 ([[1]] ++ [[3]])).outFrames =
      (maLinearProcessFrames witnessUpsampler 5 [[1]]).outFrames ++
        (maLinearProcessFrames (maLinearProcessFrames witnessUpsampler 5
          [[1]]).state 5 [[3]]).outFrames ∧
    (maLinearProcessFrames witnessUpsampler 5 [[1]]).consumed = 1 := by
  have h := split_processing_lossless witnessUpsampler 5 5 10 [[1]] [[3]]
    (by decide) (by decide) (by decide)
  exact ⟨by decide, by decide, by decide, h.1, h.2.2⟩

theorem frame_count_duality_witness :
    (0 : Nat) < witnessDownsampler.config.sampleRateOut ∧
    (0 : Nat) < witnessDownsampler.inAdvanceInt *
      witnessDownsampler.config.sampleRateOut + witnessDownsampler.inAdvanceFrac ∧
    7 ≤ LinearResampler.expected_output_frame_count witnessDownsampler
      (LinearResampler.required_input_frame_count witnessDownsampler 7) := by
  exact ⟨by decide, by decide,
    frame_count_duality witnessDownsampler 7 (by decide) (by decide)⟩

theorem clone_resets_streaming_state_witness :
    witnessDirtyLinear.inTimeInt = 7 ∧
    LinearResampler.clone witnessDirtyLinear = .ok
      { config := witnessDirtyLinear.config
        inAdvanceInt := 1
        inAdvanceFrac := 1
        inTimeInt := 2
        inTimeFrac := 0
        x0 := [0]
        x1 := [0]
        lpfDelay := [] } ∧
    Resampler.clone witnessDirtyEngine = .ok
      { config := witnessDirtyEngine.config
        state := .linear
          { config := witnessDirtyEngine.config.toLinear
            inAdvanceInt := 1
            inAdvanceFrac := 1
            inTimeInt := 2
            inTimeFrac := 0
            x0 := [0]
            x1 := [0]
            lpfDelay := [] } } := by
  refine ⟨rfl, ?_, ?_⟩
  · exact clone_resets_streaming_state.1 witnessDirtyLinear (by decide) (by decide)
  · exact clone_resets_streaming_state.2 witnessDirtyEngine (by decide) (by decide) rfl

theorem format_channels_fixed_by_types_witness :
    LinearResampler.set_rate witnessDirtyLinear 5 7 = .ok setRateResultLinear ∧
    setRateResultLinear.config.format = witnessDirtyLinear.config.format ∧
    setRateResultLinear.config.channels = witnessDirtyLinear.config.channels ∧
    Resampler.set_rate witnessDirtyEngine 5 7 = .ok setRateResultEngine ∧
    setRateResultEngine.config.format = witnessDirtyEngine.config.format ∧
    setRateResultEngine.config.channels = witnessDirtyEngine.config.channels := by
  refine ⟨rfl, ?_, ?_, rfl, ?_, ?_⟩
  · exact (format_channels_fixed_by_types.2.2.2.2.2.1 witnessDirtyLinear
      setRateResultLinear 5 7 rfl).1
  · exact (format_channels_fixed_by_types.2.2.2.2.2.1 witnessDirtyLinear
      setRateResultLinear 5 7 rfl).2
  · exact (format_channels_fixed_by_types.2.2.2.2.2.2.2 witnessDirtyEngine
      setRateResultEngine 5 7 rfl).1
  · exact (format_channels_fixed_by_types.2.2.2.2.2.2.2 witnessDirtyEngine
      setRateResultEngine 5 7 rfl).2

/-! ### Agreement of the expected-output query with the processing loop

The closed form of ma_linear_resampler_get_expected_output_frame_count is
validated against the loop itself: on any well-formed state, a processing
call given m input frames and an output buffer larger than it fills
produces exactly the queried number of frames. -/

theorem expectedCount_spec (lr : MaLinearResampler) (m : Nat) :
    ma_linear_resampler_get_expected_output_frame_count lr m =
      expectedCount lr.inAdvanceInt lr.inAdvanceFrac lr.config.sampleRateOut
        lr.inTimeInt lr.inTimeFrac m := rfl

theorem shiftIn_rem_length :
    ∀ (count : Nat) (x0 x1 : Frame) (input : List Frame), count ≤ input.length →
      (shiftIn x0 x1 input count).2.2.length = input.length - count
  | 0, _, _, input, _ => by simp [shiftIn]
  | count + 1, x0, x1, [], h => absurd h (by simp)
  | count + 1, x0, x1, fr :: rest, h => by
    simp only [shiftIn, List.length_cons]
    rw [shiftIn_rem_length count x1 fr rest (by simpa using h)]
    omega

theorem expectedCount_int (a b d t f m : Nat) (hd : 0 < d) :
    expectedCount a b d t f m =
      if 0 ≤ ((m : ℤ) + 1 - t) * d - f then
        (((m : ℤ) + 1 - t) * d - f).toNat / (a * d + b) + 1
      else 0 := by
  unfold expectedCount
  by_cases hc : t ≤ m + 1 ∧ f ≤ (m + 1 - t) * d
  · rw [if_pos hc]
    have h2 : (((m + 1 - t) * d : Nat) : ℤ) = ((m : ℤ) + 1 - t) * d := by
      push_cast
      have h1 : ((m + 1 - t : Nat) : ℤ) = (m : ℤ) + 1 - t := by omega
      rw [h1]
    have hcast := hc.2
    have h3 : 0 ≤ ((m : ℤ) + 1 - t) * d - f := by
      rw [← h2]
      omega
    have h5 : (((m : ℤ) + 1 - t) * d - f).toNat = (m + 1 - t) * d - f := by
      rw [← h2]
      omega
    rw [if_pos h3, h5]
  · rw [if_neg hc]
    rw [if_neg ?_]
    intro habs
    apply hc
    by_cases ht : t ≤ m + 1
    · refine ⟨ht, ?_⟩
      have h2 : (((m + 1 - t) * d : Nat) : ℤ) = ((m : ℤ) + 1 - t) * d := by
        push_cast
        have h1 : ((m + 1 - t : Nat) : ℤ) = (m : ℤ) + 1 - t := by omega
        rw [h1]
      rw [← h2] at habs
      omega
    · exfalso
      have h6 : ((m : ℤ) + 1 - t) ≤ -1 := by omega
      have h7 : ((m : ℤ) + 1 - t) * d ≤ (-1) * d :=
        mul_le_mul_of_nonneg_right h6 (by exact_mod_cast Nat.zero_le d)
      have hd2 : (1 : ℤ) ≤ d := by exact_mod_cast hd
      omega

theorem expectedCount_zero_of_stop (a b d t f m : Nat) (hd : 0 < d)
    (hf : f < d) (hl : ¬ loadCount t f ≤ m) :
    expectedCount a b d t f m = 0 := by
  rw [expectedCount_int a b d t f m hd]
  rw [if_neg ?_]
  intro habs
  unfold loadCount at hl
  by_cases hf0 : f = 0
  · rw [if_pos hf0] at hl
    have h6 : ((m : ℤ) + 1 - t) ≤ -1 := by omega
    have h7 : ((m : ℤ) + 1 - t) * d ≤ (-1) * d :=
      mul_le_mul_of_nonneg_right h6 (by exact_mod_cast Nat.zero_le d)
    have hd2 : (1 : ℤ) ≤ d := by exact_mod_cast hd
    omega
  · rw [if_neg hf0] at hl
    have hfpos : 0 < f := Nat.pos_of_ne_zero hf0
    have h6 : ((m : ℤ) + 1 - t) ≤ 0 := by omega
    have h7 : ((m : ℤ) + 1 - t) * d ≤ 0 * d :=
      mul_le_mul_of_nonneg_right h6 (by exact_mod_cast Nat.zero_le d)
    omega

theorem expectedCount_rec (a b d t f m : Nat) (hd : 0 < d) (hb : b < d)
    (hf : f < d) (hs : 0 < a * d + b) (hl : loadCount t f ≤ m) :
    expectedCount a b d t f m =
      expectedCount a b d (t - loadCount t f + a + stepCarry d f b)
        (f + b - stepCarry d f b * d) (m - loadCount t f) + 1 := by
  have hLt : loadCount t f ≤ t := loadCount_le_tInt t f
  have hcarry : (d ≤ f + b ∧ stepCarry d f b = 1) ∨
      (f + b < d ∧ stepCarry d f b = 0) := by
    unfold stepCarry
    by_cases hcb : d ≤ f + b
    · exact Or.inl ⟨hcb, if_pos hcb⟩
    · exact Or.inr ⟨by omega, if_neg hcb⟩
  rw [expectedCount_int a b d t f m hd, expectedCount_int a b d _ _ _ hd]
  have hWnn : 0 ≤ ((m : ℤ) + 1 - t) * d - (f : ℤ) := by
    by_cases hf0 : f = 0
    · have ht1 : (t : ℤ) ≤ (m : ℤ) + 1 := by
        unfold loadCount at hl
        rw [if_pos hf0] at hl
        omega
      have h1 : (0 : ℤ) ≤ (m : ℤ) + 1 - t := by omega
      have h2 : (0 : ℤ) ≤ ((m : ℤ) + 1 - t) * d :=
        mul_nonneg h1 (by exact_mod_cast Nat.zero_le d)
      omega
    · have ht : t ≤ m := by
        unfold loadCount at hl
        rw [if_neg hf0] at hl
        exact hl
      have h1 : (1 : ℤ) ≤ (m : ℤ) + 1 - t := by omega
      have h2 : (1 : ℤ) * d ≤ ((m : ℤ) + 1 - t) * d :=
        mul_le_mul_of_nonneg_right h1 (by exact_mod_cast Nat.zero_le d)
      have h3 : (f : ℤ) < d := by exact_mod_cast hf
      omega
  rw [if_pos hWnn]
  have hLm : ((m - loadCount t f : Nat) : ℤ) = (m : ℤ) - loadCount t f := by omega
  have hLt2 : ((t - loadCount t f + a + stepCarry d f b : Nat) : ℤ) =
      (t : ℤ) - loadCount t f + a + stepCarry d f b := by omega
  have hfc : ((f + b - stepCarry d f b * d : Nat) : ℤ) =
      (f : ℤ) + b - stepCarry d f b * d := by
    rcases hcarry with ⟨h1, h2⟩ | ⟨h1, h2⟩
    · rw [h2]
      push_cast
      omega
    · rw [h2]
      push_cast
      omega
  have hW1 : (((m - loadCount t f : Nat) : ℤ) + 1 -
        ((t - loadCount t f + a + stepCarry d f b : Nat) : ℤ)) * (d : ℤ) -
        ((f + b - stepCarry d f b * d : Nat) : ℤ) =
      ((m : ℤ) + 1 - t) * d - f - ((a * d + b : Nat) : ℤ) := by
    rw [hLm, hLt2, hfc]
    push_cast
    ring
  rw [hW1]
  by_cases hWs : 0 ≤ ((m : ℤ) + 1 - t) * d - f - ((a * d + b : Nat) : ℤ)
  · rw [if_pos hWs]
    have h5 : (((m : ℤ) + 1 - t) * d - f).toNat =
        (((m : ℤ) + 1 - t) * d - f - ((a * d + b : Nat) : ℤ)).toNat + (a * d + b) := by
      omega
    rw [h5, Nat.add_div_right _ hs]
  · rw [if_neg hWs]
    have h6 : (((m : ℤ) + 1 - t) * d - f).toNat < a * d + b := by omega
    rw [Nat.div_eq_of_lt h6]

theorem processGo_count (a b d : Nat) (hd : 0 < d) (hb : b < d)
    (hs : 0 < a * d + b) :
    ∀ (fuel t f : Nat) (x0 x1 : Frame) (input : List Frame), f < d →
      (processGo a b d fuel t f x0 x1 input).outs.length < fuel →
      (processGo a b d fuel t f x0 x1 input).outs.length =
        expectedCount a b d t f input.length := by
  intro fuel
  induction fuel with
  | zero =>
    intro t f x0 x1 input hf h
    exact absurd h (Nat.not_lt_zero _)
  | succ n ih =>
    intro t f x0 x1 input hf h
    by_cases hl : loadCount t f ≤ input.length
    · rw [processGo_succ_produce a b d n t f x0 x1 input hl] at h ⊢
      simp only [List.length_cons] at h ⊢
      have h2 := Nat.lt_of_succ_lt_succ h
      have hf1 : f + b - stepCarry d f b * d < d := by
        unfold stepCarry
        by_cases hcb : d ≤ f + b
        · rw [if_pos hcb]
          omega
        · rw [if_neg hcb]
          omega
      have hrem := shiftIn_rem_length (loadCount t f) x0 x1 input hl
      rw [ih _ _ _ _ _ hf1 h2, hrem]
      rw [expectedCount_rec a b d t f input.length hd hb hf hs hl]
    · rw [processGo_succ_stop a b d n t f x0 x1 input hl]
      rw [expectedCount_zero_of_stop a b d t f input.length hd hf hl]
      rfl

/-- On every well-formed linear resampler state, a processing call given
its whole input and an output buffer larger than it fills produces exactly
the number of frames the expected-output query predicts for that input
frame count: the modelled closed form agrees with the processing loop. -/
theorem expected_output_frame_count_agrees (lr : MaLinearResampler)
    (outCap : Nat) (input : List Frame)
    (hd : 0 < lr.config.sampleRateOut)
    (hb : lr.inAdvanceFrac < lr.config.sampleRateOut)
    (hf : lr.inTimeFrac < lr.config.sampleRateOut)
    (hs : 0 < lr.inAdvanceInt * lr.config.sampleRateOut + lr.inAdvanceFrac)
    (h : (maLinearProcessFrames lr outCap input).produced < outCap) :
    (maLinearProcessFrames lr outCap input).produced =
      LinearResampler.expected_output_frame_count lr input.length := by
  have hlen : (processGo lr.inAdvanceInt lr.inAdvanceFrac lr.config.sampleRateOut
      outCap lr.inTimeInt lr.inTimeFrac lr.x0 lr.x1 input).outs.length < outCap := h
  have hcount := processGo_count lr.inAdvanceInt lr.inAdvanceFrac
    lr.config.sampleRateOut hd hb hs outCap lr.inTimeInt lr.inTimeFrac
    lr.x0 lr.x1 input hf hlen
  exact hcount

end Miniaudio
